import Mathlib

/-!
Verification of the cart and catalog state logic of the signal-store
repository, shallowly embedded in Lean.

The embedded code:
  - src/app/shared/data-access/cart-state.service.ts
    (CartStateService: the private add reducer, the count computed signal,
    the loadProducts$ source, the add action source with its save call, and
    the saveProducts effect)
  - src/app/data-access/products-state.service.ts
    (ProductsStateService: the loadProducts$ pipeline with startWith,
    switchMap, map and catchError)
  - src/app/products/features/product-list/product-list.ts (addToCart)

StorageService (src/app/shared/data-access/storage.service.ts) is not among
the provided sources; where its behavior decides a property it is modelled
from the spec, and this is flagged at the definition.
-/

/-- A catalog product. The cart logic only ever inspects the identifier
field (compared with strict equality in the source); the remaining catalog
fields are carried opaquely by `title`. -/
structure Product where
  id : Nat
  title : String
deriving DecidableEq, Repr

/-- `ProductItemCart`: one cart line item, a product together with its
quantity, as in `product.interface.ts` usage (`{ product, quantity }`). -/
structure ProductItemCart where
  product : Product
  quantity : Nat
deriving DecidableEq, Repr

/-- The `State` interface of cart-state.service.ts:
`{ products: ProductItemCart[]; loaded: boolean }`. -/
structure CartState where
  products : List ProductItemCart
  loaded : Bool
deriving DecidableEq, Repr

/-- The initial cart state of `CartStateService`:
`{ products: [], loaded: false }`. -/
def CartStateService.initialCartState : CartState :=
  { products := [], loaded := false }

/-- Functional rendering of the found-branch of the source's `add`:
`isIncart.quantity += 1` followed by `[...state().products]`.  The in-place
mutation hits the item returned by `find`, i.e. the FIRST item of the list
whose product id matches, and the spread keeps every other item as is. -/
def incFirstQuantity : List ProductItemCart → Nat → List ProductItemCart
  | [], _ => []
  | item :: rest, pid =>
    if item.product.id == pid then
      { item with quantity := item.quantity + 1 } :: rest
    else
      item :: incFirstQuantity rest pid

/-- The private `add(state, product)` of CartStateService (lines 196-216):
scan `state().products` for an item with the same product id; if absent,
append `{ ...product, quantity: 1 }` (the spread copies the input line item
and overrides its quantity with 1); if present, increment that item's
quantity and re-wrap the list.  `loaded` passes through in both branches. -/
def CartStateService.add (state : CartState) (product : ProductItemCart) : CartState :=
  match state.products.find? (fun productInCart => productInCart.product.id == product.product.id) with
  | none =>
    { products := state.products ++ [{ product with quantity := 1 }],
      loaded := state.loaded }
  | some _ =>
    { products := incFirstQuantity state.products product.product.id,
      loaded := state.loaded }

/-- The `count` computed signal:
`state().products.reduce((total, item) => total + item.quantity, 0)`. -/
def CartStateService.count (state : CartState) : Nat :=
  state.products.foldl (fun total item => total + item.quantity) 0

/-- `addToCart(product)` of product-list.ts: wraps the product as
`{ product, quantity: 1 }` and hands it to the cart's add action. -/
def ProductList.addToCart (state : CartState) (product : Product) : CartState :=
  CartStateService.add state { product := product, quantity := 1 }

/- ### Helper lemmas about find? and incFirstQuantity -/

/-- If no element of the list matches the product id, find? comes up empty. -/
lemma find?_id_eq_none {l : List ProductItemCart} {pid : Nat}
    (h : ∀ it ∈ l, it.product.id ≠ pid) :
    l.find? (fun it => it.product.id == pid) = none := by
  rw [List.find?_eq_none]
  intro x hx
  simpa using h x hx

/-- A successful find? splits the list around the first match. -/
lemma find?_id_eq_some_split {l : List ProductItemCart} {pid : Nat} {it : ProductItemCart}
    (h : l.find? (fun x => x.product.id == pid) = some it) :
    ∃ l₁ l₂, l = l₁ ++ it :: l₂ ∧ it.product.id = pid ∧
      ∀ x ∈ l₁, x.product.id ≠ pid := by
  induction l with
  | nil => simp at h
  | cons a rest ih =>
    by_cases ha : a.product.id = pid
    · rw [List.find?_cons_of_pos _ (by simpa using ha)] at h
      cases h
      exact ⟨[], rest, by simp, ha, by simp⟩
    · rw [List.find?_cons_of_neg _ (by simpa using ha)] at h
      obtain ⟨l₁, l₂, hsplit, hid, hnone⟩ := ih h
      refine ⟨a :: l₁, l₂, by simp [hsplit], hid, ?_⟩
      intro x hx
      rcases List.mem_cons.mp hx with hx | hx
      · subst hx; exact ha
      · exact hnone x hx

/-- incFirstQuantity on a list whose first match is the head of the second
part: every item of the prefix is kept, the first matching item has its
quantity bumped by one, and the rest is untouched. -/
lemma incFirstQuantity_append {l₁ l₂ : List ProductItemCart} {it : ProductItemCart} {pid : Nat}
    (h₁ : ∀ x ∈ l₁, x.product.id ≠ pid) (hit : it.product.id = pid) :
    incFirstQuantity (l₁ ++ it :: l₂) pid
      = l₁ ++ { it with quantity := it.quantity + 1 } :: l₂ := by
  induction l₁ with
  | nil =>
    simp [incFirstQuantity, hit]
  | cons a rest ih =>
    have ha : a.product.id ≠ pid := h₁ a (by simp)
    have : incFirstQuantity (rest ++ it :: l₂) pid
        = rest ++ { it with quantity := it.quantity + 1 } :: l₂ :=
      ih (fun x hx => h₁ x (List.mem_cons_of_mem a hx))
    simp [incFirstQuantity, ha, this]

/-- C1, not-found branch, as a reusable lemma. -/
lemma add_products_of_not_mem {s : CartState} {p : ProductItemCart}
    (h : ∀ it ∈ s.products, it.product.id ≠ p.product.id) :
    (CartStateService.add s p).products
      = s.products ++ [{ product := p.product, quantity := 1 }] := by
  unfold CartStateService.add
  rw [find?_id_eq_none h]

/-- Claim C1: for every cart state and every product passed to add, if the
item list contains a line item with the same product identifier then add
returns the old list with exactly that (first matching) line item's quantity
incremented by 1 and everything else unchanged; otherwise add returns the
old list with `{ product, quantity: 1 }` appended at the end. -/
theorem c1_add_merge_or_append (s : CartState) (p : ProductItemCart) :
    ((∀ it ∈ s.products, it.product.id ≠ p.product.id) →
      (CartStateService.add s p).products
        = s.products ++ [{ product := p.product, quantity := 1 }]) ∧
    ((∃ it ∈ s.products, it.product.id = p.product.id) →
      ∃ l₁ it l₂, s.products = l₁ ++ it :: l₂ ∧
        it.product.id = p.product.id ∧
        (CartStateService.add s p).products
          = l₁ ++ { it with quantity := it.quantity + 1 } :: l₂) := by
  constructor
  · intro h
    exact add_products_of_not_mem h
  · intro h
    obtain ⟨it₀, hmem, hid⟩ := h
    cases hfind : s.products.find? (fun x => x.product.id == p.product.id) with
    | none =>
      exfalso
      have := List.find?_eq_none.mp hfind it₀ hmem
      simp [hid] at this
    | some itf =>
      obtain ⟨l₁, l₂, hsplit, hidf, hnone⟩ := find?_id_eq_some_split hfind
      refine ⟨l₁, itf, l₂, hsplit, hidf, ?_⟩
      unfold CartStateService.add
      rw [hfind, hsplit]
      exact incFirstQuantity_append hnone hidf

/-- Claim C1 witness: a concrete run of both branches of add. -/
theorem c1_add_merge_or_append_witness :
    (CartStateService.add { products := [], loaded := false }
        { product := { id := 1, title := "p1" }, quantity := 5 }).products
      = [{ product := { id := 1, title := "p1" }, quantity := 1 }] :=
  (c1_add_merge_or_append { products := [], loaded := false }
      { product := { id := 1, title := "p1" }, quantity := 5 }).1
    (by simp)

/- ### C2: count equals the sum of quantities -/

lemma foldl_add_quantity (l : List ProductItemCart) (n : Nat) :
    l.foldl (fun total item => total + item.quantity) n
      = n + (l.map (fun it => it.quantity)).sum := by
  induction l generalizing n with
  | nil => simp
  | cons a rest ih =>
    simp only [List.foldl, List.map, List.sum_cons]
    rw [ih]
    omega

/-- Claim C2: the count derived value equals the sum of the quantity fields
over all line items of the current state, and is zero when the item list is
empty; it is a pure function of the state (it is defined as one, so each
observation recomputes it from the current state with no staleness). -/
theorem c2_count_eq_sum (s : CartState) :
    CartStateService.count s = (s.products.map (fun it => it.quantity)).sum ∧
    (s.products = [] → CartStateService.count s = 0) := by
  constructor
  · unfold CartStateService.count
    simpa using foldl_add_quantity s.products 0
  · intro h
    unfold CartStateService.count
    rw [h]
    rfl

/-- Claim C2 witness: count of the empty cart is zero. -/
theorem c2_count_eq_sum_witness :
    CartStateService.count { products := [], loaded := false } = 0 :=
  (c2_count_eq_sum { products := [], loaded := false }).2 rfl

/- ### Reachable states of the cart ledger -/

/-- Reachable cart states.  The ledger starts at
`{ products: [], loaded: false }` (the signalSlice initialState); an `add`
action replaces the state by `CartStateService.add`; the resolution of the
persisted load (the `loadProducts$` source, `map (products) => ({ products,
loaded: true })`) replaces the state by the loaded list with `loaded :=
true`.  What storage can deliver is either nothing / a failed load, modelled
from the spec as the empty list, or a list the ledger previously saved.
Every save call (the one inside the add action source and the saveProducts
effect) pushes the products of a state the ledger had reached, so a
previously saved list is `t.products` for some reachable `t`. -/
inductive Reachable : CartState → Prop where
  | init : Reachable { products := [], loaded := false }
  | step_add (s : CartState) (p : ProductItemCart) :
      Reachable s → Reachable (CartStateService.add s p)
  | load_empty (s : CartState) :
      Reachable s → Reachable { products := [], loaded := true }
  | load_saved (s t : CartState) :
      Reachable s → Reachable t → Reachable { products := t.products, loaded := true }

/-- One observable transition of the cart ledger, mirroring the cases of
`Reachable`: an add action, or the resolution of the persisted load (with a
failed / absent load modelled from the spec as the empty list, and a
successful load delivering a previously saved list). -/
inductive CartStep : CartState → CartState → Prop where
  | add (s : CartState) (p : ProductItemCart) :
      CartStep s (CartStateService.add s p)
  | load_empty (s : CartState) :
      CartStep s { products := [], loaded := true }
  | load_saved (s t : CartState) :
      Reachable t → CartStep s { products := t.products, loaded := true }

/-- The items invariant of the spec: at most one line item per distinct
product identifier, and every quantity at least 1. -/
def ItemsInv (l : List ProductItemCart) : Prop :=
  (l.map (fun it => it.product.id)).Nodup ∧ ∀ it ∈ l, 1 ≤ it.quantity

/-- incFirstQuantity does not change the product ids of the list. -/
lemma incFirstQuantity_map_id (l : List ProductItemCart) (pid : Nat) :
    (incFirstQuantity l pid).map (fun it => it.product.id)
      = l.map (fun it => it.product.id) := by
  induction l with
  | nil => rfl
  | cons a rest ih =>
    unfold incFirstQuantity
    by_cases ha : a.product.id == pid
    · simp [ha]
    · simp [ha, ih]

/-- Every item of incFirstQuantity dominates the quantity of some item of
the original list. -/
lemma incFirstQuantity_quantity_le (l : List ProductItemCart) (pid : Nat) :
    ∀ it₂ ∈ incFirstQuantity l pid, ∃ it ∈ l, it.quantity ≤ it₂.quantity := by
  induction l with
  | nil => simp [incFirstQuantity]
  | cons a rest ih =>
    unfold incFirstQuantity
    by_cases ha : a.product.id == pid
    · simp only [ha, if_pos]
      intro it₂ hmem
      rcases List.mem_cons.mp hmem with h | h
      · exact ⟨a, by simp, by simp [h]⟩
      · exact ⟨it₂, by simp [h], le_refl _⟩
    · simp only [ha, if_neg, Bool.false_eq_true, not_false_iff]
      intro it₂ hmem
      rcases List.mem_cons.mp hmem with h | h
      · exact ⟨a, by simp, by simp [h]⟩
      · obtain ⟨it, hit, hle⟩ := ih it₂ h
        exact ⟨it, List.mem_cons_of_mem a hit, hle⟩

/-- The add reducer preserves the items invariant. -/
lemma add_preserves_ItemsInv {s : CartState} (p : ProductItemCart)
    (h : ItemsInv s.products) : ItemsInv (CartStateService.add s p).products := by
  obtain ⟨hnodup, hqty⟩ := h
  unfold CartStateService.add
  cases hfind : s.products.find? (fun x => x.product.id == p.product.id) with
  | none =>
    have hnotin : ∀ it ∈ s.products, it.product.id ≠ p.product.id := by
      intro it hit
      have := List.find?_eq_none.mp hfind it hit
      simpa using this
    constructor
    · simp only [List.map_append, List.map_cons, List.map_nil]
      rw [List.nodup_append]
      refine ⟨hnodup, List.nodup_singleton _, ?_⟩
      intro x hx hxy
      simp only [List.mem_singleton] at hxy
      subst hxy
      obtain ⟨it, hit, hid⟩ := List.mem_map.mp hx
      exact hnotin it hit hid
    · intro it hit
      rcases List.mem_append.mp hit with h | h
      · exact hqty it h
      · simp only [List.mem_singleton] at h
        subst h
        exact le_refl 1
  | some itf =>
    constructor
    · rw [incFirstQuantity_map_id]
      exact hnodup
    · intro it₂ hit₂
      obtain ⟨it, hit, hle⟩ := incFirstQuantity_quantity_le _ _ it₂ hit₂
      exact le_trans (hqty it hit) hle

/-- Claim C3: in every reachable cart state the item list holds at most one
line item per distinct product identifier, and every line item's quantity is
at least 1. -/
theorem c3_reachable_items_invariant (s : CartState) (h : Reachable s) :
    (s.products.map (fun it => it.product.id)).Nodup ∧
    ∀ it ∈ s.products, 1 ≤ it.quantity := by
  induction h with
  | init => exact ⟨List.nodup_nil, by simp⟩
  | step_add s p _ ih => exact add_preserves_ItemsInv p ih
  | load_empty s _ _ => exact ⟨List.nodup_nil, by simp⟩
  | load_saved s t _ _ _ iht => exact iht

/-- Claim C3 witness: the invariant at a concrete reachable state. -/
theorem c3_reachable_items_invariant_witness :
    ((CartStateService.add { products := [], loaded := false }
        { product := { id := 1, title := "p1" }, quantity := 7 }).products.map
          (fun it => it.product.id)).Nodup ∧
    ∀ it ∈ (CartStateService.add { products := [], loaded := false }
        { product := { id := 1, title := "p1" }, quantity := 7 }).products,
      1 ≤ it.quantity :=
  c3_reachable_items_invariant _
    (Reachable.step_add _ _ Reachable.init)

/- ### C6: the loaded flag is monotone -/

/-- Claim C6: the loaded flag starts false in the initial state, add leaves
the flag of any state unchanged, and along every ledger transition a state
with `loaded = true` can only step to a state with `loaded = true` (the flag
becomes true only via the load resolution and never reverts). -/
theorem c6_loaded_monotone :
    CartStateService.initialCartState.loaded = false ∧
    (∀ (s : CartState) (p : ProductItemCart),
      (CartStateService.add s p).loaded = s.loaded) ∧
    (∀ (s s₂ : CartState), CartStep s s₂ → s.loaded = true → s₂.loaded = true) := by
  refine ⟨rfl, ?_, ?_⟩
  · intro s p
    unfold CartStateService.add
    cases s.products.find? (fun x => x.product.id == p.product.id) <;> rfl
  · intro s s₂ hstep hloaded
    cases hstep with
    | add p =>
      unfold CartStateService.add
      cases s.products.find? (fun x => x.product.id == p.product.id) <;> exact hloaded
    | load_empty => rfl
    | load_saved t ht => rfl

/-- Claim C6 witness: add keeps loaded true across a concrete step. -/
theorem c6_loaded_monotone_witness :
    (CartStateService.add { products := [], loaded := true }
      { product := { id := 1, title := "p1" }, quantity := 1 }).loaded = true :=
  c6_loaded_monotone.2.2 { products := [], loaded := true } _
    (CartStep.add _ { product := { id := 1, title := "p1" }, quantity := 1 }) rfl

/- ### C4: repeated add of a fresh product -/

/-- `addTimes s p n`: the state after n successive calls of the add action
with the same input, starting from s. -/
def addTimes (s : CartState) (p : ProductItemCart) : Nat → CartState
  | 0 => s
  | n + 1 => CartStateService.add (addTimes s p n) p

/-- find? skips a prefix with no match. -/
lemma find?_id_append_of_none {l₁ l₂ : List ProductItemCart} {pid : Nat}
    (h : ∀ x ∈ l₁, x.product.id ≠ pid) :
    (l₁ ++ l₂).find? (fun x => x.product.id == pid)
      = l₂.find? (fun x => x.product.id == pid) := by
  induction l₁ with
  | nil => rfl
  | cons a rest ih =>
    have ha : a.product.id ≠ pid := h a (by simp)
    rw [List.cons_append, List.find?_cons_of_neg _ (by simpa using ha)]
    exact ih (fun x hx => h x (List.mem_cons_of_mem a hx))

/-- After n ≥ 1 adds of a product absent from the starting list, the state
is the old list with one trailing line item carrying quantity n; loaded is
untouched. -/
lemma addTimes_products {s : CartState} {p : ProductItemCart}
    (h : ∀ it ∈ s.products, it.product.id ≠ p.product.id) :
    ∀ n, 1 ≤ n →
      addTimes s p n
        = { products := s.products ++ [{ product := p.product, quantity := n }],
            loaded := s.loaded } := by
  intro n hn
  induction n with
  | zero => omega
  | succ m ih =>
    by_cases hm : 1 ≤ m
    · have hprev := ih hm
      have hinc := @incFirstQuantity_append s.products []
        { product := p.product, quantity := m } p.product.id h rfl
      show CartStateService.add (addTimes s p m) p = _
      rw [hprev]
      unfold CartStateService.add
      rw [find?_id_append_of_none h, List.find?_cons_of_pos _ (by simp)]
      show CartState.mk
          (incFirstQuantity (s.products ++ [{ product := p.product, quantity := m }])
            p.product.id) s.loaded = _
      rw [hinc]
    · have hm0 : m = 0 := by omega
      subst hm0
      show CartStateService.add (addTimes s p 0) p = _
      show CartStateService.add s p = _
      unfold CartStateService.add
      rw [find?_id_eq_none h]

/-- Claim C4: for a product whose identifier is absent from the starting
state, N ≥ 1 successive add calls produce a state whose item list has
exactly one line item with that product identifier, and its quantity is
exactly N (the product component being the one passed in). -/
theorem c4_repeated_add (s : CartState) (p : ProductItemCart) (N : Nat)
    (hN : 1 ≤ N) (h : ∀ it ∈ s.products, it.product.id ≠ p.product.id) :
    (addTimes s p N).products.filter (fun it => it.product.id == p.product.id)
      = [{ product := p.product, quantity := N }] := by
  rw [addTimes_products h N hN]
  simp only [List.filter_append]
  have h₁ : s.products.filter (fun it => it.product.id == p.product.id) = [] := by
    rw [List.filter_eq_nil_iff]
    intro it hit
    simpa using h it hit
  rw [h₁]
  simp

/-- Claim C4 witness: two adds of a fresh product give quantity 2. -/
theorem c4_repeated_add_witness :
    (addTimes { products := [], loaded := false }
        { product := { id := 1, title := "p1" }, quantity := 9 } 2).products.filter
      (fun it => it.product.id == ({ id := 1, title := "p1" } : Product).id)
      = [{ product := { id := 1, title := "p1" }, quantity := 2 }] :=
  c4_repeated_add { products := [], loaded := false }
    { product := { id := 1, title := "p1" }, quantity := 9 } 2
    (by omega) (by simp)

/- ### C10: the quantity field of the add input is ignored on insertion -/

/-- Claim C10: when the input's product identifier is not in the item list,
the appended line item carries quantity 1 whatever quantity the input value
carries; indeed add does not depend on the input's quantity field at all in
that case. -/
theorem c10_insert_quantity_ignored (s : CartState) (item : ProductItemCart)
    (h : ∀ it ∈ s.products, it.product.id ≠ item.product.id) :
    (CartStateService.add s item).products
      = s.products ++ [{ product := item.product, quantity := 1 }] ∧
    ∀ q : Nat,
      CartStateService.add s { product := item.product, quantity := q }
        = CartStateService.add s item := by
  constructor
  · exact add_products_of_not_mem h
  · intro q
    unfold CartStateService.add
    rw [find?_id_eq_none h]

/-- Claim C10 witness: inserting with a large carried quantity still yields
quantity 1. -/
theorem c10_insert_quantity_ignored_witness :
    (CartStateService.add { products := [], loaded := false }
        { product := { id := 2, title := "p2" }, quantity := 42 }).products
      = [{ product := { id := 2, title := "p2" }, quantity := 1 }] :=
  (c10_insert_quantity_ignored { products := [], loaded := false }
      { product := { id := 2, title := "p2" }, quantity := 42 } (by simp)).1

/- ### C5: fail-open persisted load -/

/-- Modelled from the spec: `StorageService.loadProducts` of
storage.service.ts is not among the provided sources; per the spec the load
"may fail (e.g., storage corrupted or absent); in that case the ledger must
still reach loaded=true with an empty item list", and the persistence
collaborator's load is to be treated "as empty on failure".  We model its
observable outcome: the persisted list on success, the empty list on
failure. -/
def StorageService.loadProducts : Except Unit (List ProductItemCart) → List ProductItemCart
  | Except.ok products => products
  | Except.error _ => []

/-- The `loadProducts$` source of CartStateService (lines 95-97): the
storage load piped through `map ((products) => ({ products, loaded: true }))`.
The emitted object carries both state fields, so applying it replaces the
whole cart state. -/
def CartStateService.loadProductsResult (r : Except Unit (List ProductItemCart)) : CartState :=
  { products := StorageService.loadProducts r, loaded := true }

/-- Claim C5: if the persisted load fails, the ledger still reaches
`{ products: [], loaded: true }` — the failed load resolves to the empty
list and the loadProducts$ source marks the state loaded, so the ledger does
not stay at `loaded = false`; that state is reachable from any state, in
particular from the initial one. -/
theorem c5_load_failure_fail_open (e : Unit) :
    CartStateService.loadProductsResult (Except.error e)
      = { products := [], loaded := true } ∧
    Reachable { products := [], loaded := true } :=
  ⟨rfl, Reachable.load_empty CartStateService.initialCartState Reachable.init⟩

/- ### C7: the add action saves the new list and ignores the save outcome -/

/-- Result of one run of the add action source together with the saveProducts
effect: the new cart state plus the item lists pushed to the storage
collaborator's save during the call, in order. -/
structure AddCallResult where
  state : CartState
  saves : List (List ProductItemCart)
deriving DecidableEq, Repr

/-- One add action of the signalSlice (lines 130-143) followed by the
saveProducts effect (lines 147-159): the action computes
`newState = this.add(state, product)`, calls
`this._storageService.saveProducts(newState.products)` unconditionally, and
returns `newState`; the state change then triggers the effect, which saves
`state().products` again when `state.loaded()` is true.  `saveOutcome` is the
result of the storage save; the call is fire-and-forget (the source discards
it, per the spec the ledger "does not await confirmation"), so it cannot flow
into the returned state. -/
def CartStateService.addCall (state : CartState) (product : ProductItemCart)
    (_saveOutcome : Bool) : AddCallResult :=
  let newState := CartStateService.add state product
  let actionSaves := [newState.products]
  let effectSaves := if newState.loaded then [newState.products] else []
  { state := newState, saves := actionSaves ++ effectSaves }

/-- Claim C7: on every add call, whatever the loaded flag and the save
outcome, the list pushed to the storage save is exactly the new state's item
list, the in-memory state becomes `CartStateService.add state product`
independently of whether the save succeeds, and on the spec's example (a
loaded state holding product 1 with quantity 2, then add of product 1) the
new list `[{ product 1, quantity: 3 }]` is both the state and the saved
list. -/
theorem c7_add_saves_new_list (s : CartState) (p : ProductItemCart) (saveOutcome : Bool) :
    (CartStateService.addCall s p saveOutcome).state = CartStateService.add s p ∧
    (CartStateService.add s p).products ∈ (CartStateService.addCall s p saveOutcome).saves ∧
    (∀ l ∈ (CartStateService.addCall s p saveOutcome).saves,
      l = (CartStateService.add s p).products) ∧
    CartStateService.addCall s p true = CartStateService.addCall s p false ∧
    (CartStateService.addCall
        { products := [{ product := { id := 1, title := "p1" }, quantity := 2 }],
          loaded := true }
        { product := { id := 1, title := "p1" }, quantity := 1 } saveOutcome).state.products
      = [{ product := { id := 1, title := "p1" }, quantity := 3 }] ∧
    [({ product := { id := 1, title := "p1" }, quantity := 3 } : ProductItemCart)] ∈
      (CartStateService.addCall
        { products := [{ product := { id := 1, title := "p1" }, quantity := 2 }],
          loaded := true }
        { product := { id := 1, title := "p1" }, quantity := 1 } saveOutcome).saves := by
  refine ⟨rfl, ?_, ?_, rfl, by cases saveOutcome <;> decide, by cases saveOutcome <;> decide⟩
  · unfold CartStateService.addCall
    simp
  · intro l hl
    unfold CartStateService.addCall at hl
    simp only [List.mem_append, List.mem_singleton] at hl
    rcases hl with h | h
    · exact h
    · by_cases hld : (CartStateService.add s p).loaded
      · simp [hld] at h
        exact h
      · simp [hld] at h

/- ### Products catalog state (products-state.service.ts) -/

/-- The status field of the products `State` interface:
`'loading' | 'success' | 'error'`. -/
inductive Status where
  | loading
  | success
  | error
deriving DecidableEq, Repr

/-- The products `State` interface of products-state.service.ts:
`{ products: Product[]; status: 'loading' | 'success' | 'error'; page: number }`. -/
structure ProductsState where
  products : List Product
  status : Status
  page : Nat
deriving DecidableEq, Repr

/-- The initial products state:
`{ products: [], status: 'loading', page: 1 }`. -/
def ProductsStateService.initialProductsState : ProductsState :=
  { products := [], status := Status.loading, page := 1 }

/-- A partial-state object emitted by the `loadProducts$` source: it carries
only the `products` and `status` fields, which signalSlice merges into the
current state. -/
structure ProductsUpdate where
  products : List Product
  status : Status
deriving DecidableEq, Repr

/-- signalSlice merging a `loadProducts$` emission into the current state:
the emitted object holds `products` and `status`, so those two fields are
replaced and `page` is kept. -/
def applyProductsUpdate (s : ProductsState) (u : ProductsUpdate) : ProductsState :=
  { products := u.products, status := u.status, page := s.page }

/-- The emissions of the `loadProducts$` pipeline of ProductsStateService
(lines 26-33) over a sequence of pages to fetch, given the catalog fetch as
an oracle `fetch : page → Except Unit (products or failure)`:
`switchMap((page) => this.productsService.getProducts(page))` fetches one
page per incoming page number, `map` wraps a successful response as
`{ products, status: 'success' }`, and the trailing
`catchError(() => of({ products: [], status: 'error' }))` sits OUTSIDE the
switchMap: a fetch error is caught there, one
`{ products: [], status: 'error' }` object is emitted, and the replacement
observable completes — the pipeline emits nothing further, whatever page
numbers follow.  Events are processed one at a time (each fetch settles
before the next page event, per the single-threaded event model). -/
def loadProductsEmissions (fetch : Nat → Except Unit (List Product)) :
    List Nat → List ProductsUpdate
  | [] => []
  | page :: rest =>
    match fetch page with
    | Except.ok products =>
      { products := products, status := Status.success }
        :: loadProductsEmissions fetch rest
    | Except.error _ => [{ products := [], status := Status.error }]

/-- The pages for which the `loadProducts$` pipeline actually invokes the
catalog fetch (`getProducts`), over the same event sequence: each incoming
page number triggers exactly one fetch while the stream is alive, and after
a fetch error the stream has completed, so the remaining page numbers
trigger none. -/
def loadProductsFetches (fetch : Nat → Except Unit (List Product)) :
    List Nat → List Nat
  | [] => []
  | page :: rest =>
    match fetch page with
    | Except.ok _ => page :: loadProductsFetches fetch rest
    | Except.error _ => [page]

/-- The page sequence seen by `loadProducts$`: `startWith(1)` prepends an
initial page-1 fetch to the user-triggered `changePage$` events. -/
def productsPages (changePageEvents : List Nat) : List Nat :=
  1 :: changePageEvents

/-- Claim C8: when the catalog fetch for a page fails, the pipeline emits
exactly `{ products: [], status: 'error' }` (and nothing after it), and
merging that emission into any current state yields a state with an empty
product list and status 'error' — the failure is surfaced as the status
flag; the pipeline is a total function of the fetch outcome, so no
exception reaches the caller. -/
theorem c8_fetch_failure_surfaces_error (fetch : Nat → Except Unit (List Product))
    (page : Nat) (rest : List Nat) (s : ProductsState) (e : Unit)
    (h : fetch page = Except.error e) :
    loadProductsEmissions fetch (page :: rest)
      = [{ products := [], status := Status.error }] ∧
    applyProductsUpdate s { products := [], status := Status.error }
      = { products := [], status := Status.error, page := s.page } := by
  constructor
  · unfold loadProductsEmissions
    rw [h]
  · rfl

/-- Claim C8 witness: a concrete failing fetch. -/
theorem c8_fetch_failure_surfaces_error_witness :
    loadProductsEmissions (fun _ => Except.error ()) (productsPages [])
      = [{ products := [], status := Status.error }] ∧
    applyProductsUpdate ProductsStateService.initialProductsState
        { products := [], status := Status.error }
      = { products := [], status := Status.error, page := 1 } :=
  c8_fetch_failure_surfaces_error (fun _ => Except.error ()) 1 []
    ProductsStateService.initialProductsState () rfl

/-- A concrete fetch oracle that fails on page 1 and would succeed on any
other page. -/
def failingPageOneFetch : Nat → Except Unit (List Product) :=
  fun page => if page = 1 then Except.error () else Except.ok []

/-- Claim C9 counterexample: with a fetch that fails on the initial page-1
load and would succeed on page 2, a subsequent user page-change event to
page 2 does NOT initiate a fetch for page 2: the only fetch ever made is the
failing page-1 one, because the catchError replacement completes the
loadProducts$ stream.  This refutes the claim that the page-change action
remains an effective recovery path after an error. -/
theorem c9_counterexample :
    failingPageOneFetch 1 = Except.error () ∧
    loadProductsFetches failingPageOneFetch (productsPages [2]) = [1] ∧
    2 ∉ loadProductsFetches failingPageOneFetch (productsPages [2]) := by
  refine ⟨rfl, rfl, ?_⟩
  decide

/-- Claim C9 (amended): a failed catalog fetch is never retried
automatically — the pages fetched are an initial segment of the incoming
page events, one fetch per event at most; but after a fetch failure the
stream has completed, so the failing page is the last page ever fetched and
subsequent page-change events initiate no new fetch. -/
theorem c9_amended_no_retry_stream_dead (fetch : Nat → Except Unit (List Product))
    (pages rest : List Nat) (page : Nat) (e : Unit)
    (h : fetch page = Except.error e) :
    (∃ t, loadProductsFetches fetch pages ++ t = pages) ∧
    loadProductsFetches fetch (page :: rest) = [page] := by
  constructor
  · induction pages with
    | nil => exact ⟨[], rfl⟩
    | cons q qs ih =>
      unfold loadProductsFetches
      cases hq : fetch q with
      | ok products =>
        obtain ⟨t, ht⟩ := ih
        exact ⟨t, by rw [List.cons_append, ht]⟩
      | error u => exact ⟨qs, rfl⟩
  · unfold loadProductsFetches
    rw [h]

/-- Claim C9 (amended) witness: the concrete failing run. -/
theorem c9_amended_no_retry_stream_dead_witness :
    (∃ t, loadProductsFetches failingPageOneFetch (productsPages [2]) ++ t
        = productsPages [2]) ∧
    loadProductsFetches failingPageOneFetch (1 :: [2]) = [1] :=
  c9_amended_no_retry_stream_dead failingPageOneFetch (productsPages [2]) [2] 1 () rfl
